import Mathlib

/-!
Verification development for the NanoPyx core numerics.

Embedded source files:
* `src/nanopyx/core/transform/sr_temporal_correlations.py` — the temporal
  correlation engine (`calculate_SRRF_temporal_correlations`,
  `calculate_eSRRF_temporal_correlations`, `calculate_pairwise_product_sum`,
  `calculate_acrf_`, `calculate_tac2`);
* `src/enanoscopy/methods/image/drift/estimate_shift.py` — the sub-pixel
  peak locator (`GetMaxOptimizer`).

Modelling conventions: pixel intensities are rationals (the source computes in
single-precision floats; every property settled here is exact arithmetic that
does not depend on rounding); a 2-D frame is a total function on row/column
indices; a numpy 3-D array is a `Stack3` (height, width, list of frames).
Out-of-range numpy indexing is modelled with default values only on paths no
settled claim evaluates.  In-place numpy mutation (the lag-integration branch
of `calculate_acrf_`) is modelled by explicit heap passing, so that the
"caller's buffer is never mutated" contract is a real statement: heap cells
are the caller-visible arrays, `np.array(..)`/`.copy()` allocate fresh cells,
and slice assignment writes a cell.
-/

/-- A 2-D frame: the pixel value at row `i`, column `j`. -/
abbrev Frame := Nat → Nat → ℚ

/-- The all-zero frame (`np.zeros((height_m, width_m))`). -/
def zeroF : Frame := fun _ _ => 0

/-- The constant-one frame. -/
def oneF : Frame := fun _ _ => 1

/-- The constant-two frame. -/
def twoF : Frame := fun _ _ => 2

/-- The constant minus-one frame. -/
def negOneF : Frame := fun _ _ => (-1 : ℚ)

/-- Pointwise addition of frames. -/
def fadd (f g : Frame) : Frame := fun i j => f i j + g i j

/-- Pointwise subtraction of frames. -/
def fsub (f g : Frame) : Frame := fun i j => f i j - g i j

/-- Pointwise (Hadamard) product of frames, numpy `*` / `np.multiply`. -/
def fmul (f g : Frame) : Frame := fun i j => f i j * g i j

/-- Division of a frame by a scalar. -/
def fdivC (f : Frame) (q : ℚ) : Frame := fun i j => f i j / q

/-- Pointwise absolute value, `np.absolute`. -/
def fabs (f : Frame) : Frame := fun i j => |f i j|

/-- A numpy 3-D stack: `shape = (frames.length, H, W)`. -/
structure Stack3 where
  H : ℕ
  W : ℕ
  frames : List Frame

/-- `np.mean(im, axis=0)`: pointwise mean over the frames of the list. -/
def npMeanL (l : List Frame) : Frame :=
  fun i j => (∑ t ∈ Finset.range l.length, l.getD t zeroF i j) / (l.length : ℚ)

/-- `np.amax(im, axis=0)`: pointwise maximum over the frames.  The source only
applies it to nonempty stacks; on the empty stack this model returns 0 where
numpy would raise. -/
def npAmax (l : List Frame) : Frame :=
  fun i j =>
    match l with
    | [] => 0
    | f :: rest => (rest.map (fun g => g i j)).foldl max (f i j)

/-- `np.var(im, axis=0)`: pointwise population variance (divisor `T`). -/
def npVarL (l : List Frame) : Frame :=
  fun i j =>
    (∑ t ∈ Finset.range l.length, (l.getD t zeroF i j - npMeanL l i j) ^ 2) /
      (l.length : ℚ)

/-- `calculate_tac2`: mean-center the stack, then
`np.mean(centered[:-1] * centered[1:], axis=0)` with `nlag = 1`.  Slice `t` of
the sliced elementwise product is `centered[t] * centered[t+1]`, and the mean
over axis 0 runs over the `T - 1` such slices (so numpy divides by `T - 1`). -/
def calculate_tac2 (s : Stack3) : Frame :=
  fun i j =>
    (∑ t ∈ Finset.range (s.frames.length - 1),
        (s.frames.getD t zeroF i j - npMeanL s.frames i j) *
          (s.frames.getD (t + 1) zeroF i j - npMeanL s.frames i j)) /
      ((s.frames.length : ℚ) - 1)

/-- `np.maximum(frame, 0)`: clip a frame to non-negative values. -/
def clipNeg (f : Frame) : Frame := fun i j => max (f i j) 0

/-- `np.any(frame)` over the `H × W` entries: true when some entry is nonzero.
In the source the result is further compared `> 0`, which on a numpy boolean
is the boolean itself. -/
def npAny (H W : ℕ) (f : Frame) : Bool :=
  (List.range H).any fun i => (List.range W).any fun j => decide (f i j ≠ 0)

/-- A dynamically typed numpy value: the `pps` accumulator of
`calculate_pairwise_product_sum` starts as the Python int `0` and becomes an
array only when an array is first added to it (numpy broadcasting). -/
inductive NpVal where
  | scalar (q : ℚ)
  | mat (f : Frame)

/-- Broadcasting `pps + r0 * r1` where the right operand is a frame. -/
def NpVal.add : NpVal → Frame → NpVal
  | .scalar q, g => .mat (fun i j => q + g i j)
  | .mat f, g => .mat (fadd f g)

/-- Broadcasting division of a numpy value by a scalar. -/
def NpVal.divC : NpVal → ℚ → NpVal
  | .scalar q, c => .scalar (q / c)
  | .mat f, c => .mat (fdivC f c)

/-- Body of the `t0` iteration of `calculate_pairwise_product_sum`: clip frame
`t0`; if it has any positive entry, accumulate `r0 * r1` over `t1 = t0 .. n-1`
bumping the counter per pair, otherwise only bump the counter by `n - t0`. -/
def ppsStep (s : Stack3) (n : ℕ) (st : NpVal × ℕ) (t0 : ℕ) : NpVal × ℕ :=
  let r0 := clipNeg (s.frames.getD t0 zeroF)
  if npAny s.H s.W r0 then
    (List.range' t0 (n - t0)).foldl
      (fun st2 t1 =>
        let r1 := clipNeg (s.frames.getD t1 zeroF)
        (st2.1.add (fmul r0 r1), st2.2 + 1))
      st
  else (st.1, st.2 + (n - t0))

/-- `calculate_pairwise_product_sum` (source lines 44-64): pair loop over
`t0 ≤ t1`, then `pps = pps / max(counter, 1)` and `out_array = pps` — note the
source returns `pps` itself, overwriting the `np.zeros((H, W))` it allocated
for `out_array`. -/
def calculate_pairwise_product_sum (s : Stack3) : NpVal :=
  let n := s.frames.length
  let res := (List.range n).foldl (ppsStep s n) (NpVal.scalar 0, 0)
  res.1.divC (max res.2 1 : ℕ)

/-- The accumulators of `calculate_acrf_` (`ab`, `abc`, `abcd`, `cd`, `ac`,
`bd`, `ad`, `bc`), all starting as `np.zeros((H, W))`. -/
structure AcrfAcc where
  ab : Frame
  abc : Frame
  abcd : Frame
  cd : Frame
  ac : Frame
  bd : Frame
  ad : Frame
  bc : Frame

/-- All-zero accumulators. -/
def AcrfAcc.init : AcrfAcc := ⟨zeroF, zeroF, zeroF, zeroF, zeroF, zeroF, zeroF, zeroF⟩

/-- Accumulator update shared verbatim by both branches of `calculate_acrf_`:
`ab += (im[t]-mean)*(im[t+1]-mean)`; for order 3 the source's literal grouping
`abc = abc + (im[t]-mean)*(im[t+1]-mean) + (im[t+2]-mean)` (a sum, not a
triple product); for order 4 the four centered frames and their pairwise and
4-way products. -/
def accUpdate (im : List Frame) (mean : Frame) (order : ℤ) (acc : AcrfAcc) (t : ℕ) :
    AcrfAcc :=
  let a := fsub (im.getD t zeroF) mean
  let b := fsub (im.getD (t + 1) zeroF) mean
  let acc1 := { acc with ab := fadd acc.ab (fmul a b) }
  let acc2 :=
    if order = 3 then
      { acc1 with abc := fadd (fadd acc1.abc (fmul a b)) (fsub (im.getD (t + 2) zeroF) mean) }
    else acc1
  if order = 4 then
    let c := fsub (im.getD (t + 2) zeroF) mean
    let d := fsub (im.getD (t + 3) zeroF) mean
    { acc2 with
      abcd := fadd acc2.abcd (fmul (fmul (fmul a b) c) d)
      cd := fadd acc2.cd (fmul c d)
      ac := fadd acc2.ac (fmul a c)
      bd := fadd acc2.bd (fmul b d)
      ad := fadd acc2.ad (fmul a d)
      bc := fadd acc2.bc (fmul b c) }
  else acc2

/-- Output selection of `calculate_acrf_`: per order, the absolute value of
the accumulated statistic divided by the (current) number of time points. -/
def acrfOut (order : ℤ) (acc : AcrfAcc) (denom : ℚ) : Frame :=
  if order = 3 then fdivC (fabs acc.abc) denom
  else if order = 4 then
    fdivC
      (fabs (fsub (fsub (fsub acc.abcd (fmul acc.ab acc.cd)) (fmul acc.ac acc.bd))
        (fmul acc.ad acc.bc)))
      denom
  else fdivC (fabs acc.ab) denom

/-- A heap of numpy arrays: cell `r` holds the array a caller passed in or a
working copy.  `np.array(..)` / `.copy()` allocate a fresh cell; slice
assignment writes a cell. -/
structure Heap where
  arrays : List Stack3

/-- Read heap cell `r` (dangling reads yield an empty array). -/
def Heap.read (h : Heap) (r : ℕ) : Stack3 := h.arrays.getD r ⟨0, 0, []⟩

/-- Allocate a fresh cell holding `v`; returns the new heap and the cell. -/
def Heap.alloc (h : Heap) (v : Stack3) : Heap × ℕ :=
  (⟨h.arrays ++ [v]⟩, h.arrays.length)

/-- Overwrite heap cell `r` with `v`. -/
def Heap.write (h : Heap) (r : ℕ) (v : Stack3) : Heap := ⟨h.arrays.set r v⟩

/-- Body of the inner `while` of the lag-integration branch at time `t`:
`tbin = t * order`; the shared accumulator update; `im[t] = np.zeros(..)`;
then, when `tbin < n_binned_time_points`, for `_t in range(order - 1)` the
in-place rebinning `im[t] = im[t] + np.divide(im[tbin + _t], order)` — each
such statement reads the current (already partly zeroed/rebinned) contents of
the working array, which is why the heap is threaded through. -/
def lagStep (rim : ℕ) (mean : Frame) (order : ℤ) (nb : ℚ) (st : Heap × AcrfAcc)
    (t : ℕ) : Heap × AcrfAcc :=
  let h := st.1
  let s := h.read rim
  let tbin : ℤ := (t : ℤ) * order
  let acc := accUpdate s.frames mean order st.2 t
  let h1 := h.write rim { s with frames := s.frames.set t zeroF }
  let h2 :=
    if (tbin : ℚ) < nb then
      (List.range (order - 1).toNat).foldl
        (fun hh _t =>
          let s2 := hh.read rim
          hh.write rim
            { s2 with
              frames :=
                s2.frames.set t
                  (fadd (s2.frames.getD t zeroF)
                    (fdivC (s2.frames.getD (tbin.toNat + _t) zeroF) (order : ℚ))) })
        h1
    else h1
  (h2, acc)

/-- Outer `while n_binned_time_points > order` loop of the lag-integration
branch.  Per pass: `ab` is reset to zeros, the inner loop runs for
`t < n_binned_time_points - order` (the iteration count of the `while` with a
natural `t` against the rational bound is `⌈nb - order⌉⁺`), the pass output is
computed, and `n_binned_time_points` is divided by `order` (the source tracks
it as a float; this model uses exact rationals, which agrees with the float
semantics on every configuration a settled claim touches).  The loop is driven
by explicit fuel; `calculate_acrf_heap` passes `T + 1` units, which is enough
for every pass the source performs when `order ≥ 2` (after `k` passes the
count is `T / order ^ k`, and `order ^ (T+1) > T`). -/
def lagOuter (rim : ℕ) (mean : Frame) (order : ℤ) :
    ℕ → ℚ → Heap → AcrfAcc → Frame → Heap × Frame
  | 0, _, h, _, out => (h, out)
  | fuel + 1, nb, h, acc, out =>
    if (order : ℚ) < nb then
      let acc0 := { acc with ab := zeroF }
      let st :=
        (List.range ((nb - (order : ℚ)).ceil.toNat)).foldl
          (lagStep rim mean order nb) (h, acc0)
      lagOuter rim mean order fuel (nb / (order : ℚ)) st.1 st.2 (acrfOut order st.2 nb)
    else (h, out)

/-- `calculate_acrf_` (source lines 67-147) over the heap: `im =
rad_array.copy()` allocates a working cell; the non-lag-integrated branch
accumulates over the sliding window `t < n_time_points - order` and never
writes the heap; the lag-integration branch destructively rebins the working
cell.  Returns the final heap and `out_array`. -/
def calculate_acrf_heap (h : Heap) (r : ℕ) (order : ℤ) (flag : Bool) :
    Heap × Frame :=
  let p := h.alloc (h.read r)
  let h1 := p.1
  let rim := p.2
  let im := (h1.read rim).frames
  let n := im.length
  let mean := npMeanL im
  if flag = false then
    let acc :=
      (List.range ((n : ℤ) - order).toNat).foldl (accUpdate im mean order) AcrfAcc.init
    (h1, acrfOut order acc (n : ℚ))
  else
    lagOuter rim mean order (n + 1) (n : ℚ) h1 AcrfAcc.init zeroF

/-- `calculate_acrf_` as the caller sees it: run on a one-cell heap holding
the argument and keep the returned map (`do_integrate_lag_times` is truthy
exactly when the flag is `true`). -/
def calculate_acrf_ (s : Stack3) (order : ℤ) (flag : Bool) : Frame :=
  (calculate_acrf_heap ⟨[s]⟩ 0 order flag).2

/-- The branch `calculate_SRRF_temporal_correlations` selects, as a function
of `im.ndim` and `order` only: the assertion `im.ndim == 3 and order <= 4`
(an `AssertionError` when it fails), then the `order == 0 / 1 / -1 / else`
chain of the source. -/
inductive SRRFBranch where
  | amax
  | mean
  | pps
  | acrf
  | assertError
deriving DecidableEq

/-- Control flow of `calculate_SRRF_temporal_correlations` (source lines
4-21). -/
def srrfDispatch (ndim : ℕ) (order : ℤ) : SRRFBranch :=
  if ¬(ndim = 3 ∧ order ≤ 4) then .assertError
  else if order = 0 then .amax
  else if order = 1 then .mean
  else if order = -1 then .pps
  else .acrf

/-- `calculate_SRRF_temporal_correlations` over the heap.  The first statement
`im = np.array(im, dtype='float32')` allocates a fresh copy of the caller's
array (heap cells are 3-D stacks, so `im.ndim` is 3 here); the `order = 0, 1,
-1` branches are pure reads; every other order that passes the assertion is
handed to `calculate_acrf_`. -/
def calculate_SRRF_heap (h : Heap) (r : ℕ) (order : ℤ) (flag : Bool) :
    Heap × Except String NpVal :=
  let p := h.alloc (h.read r)
  let h1 := p.1
  let r1 := p.2
  let s := h1.read r1
  match srrfDispatch 3 order with
  | .assertError => (h1, .error ("AssertionError"))
  | .amax => (h1, .ok (.mat (npAmax s.frames)))
  | .mean => (h1, .ok (.mat (npMeanL s.frames)))
  | .pps => (h1, .ok (calculate_pairwise_product_sum s))
  | .acrf =>
    let q := calculate_acrf_heap h1 r1 order flag
    (q.1, .ok (.mat q.2))

/-- A dynamically shaped numpy argument, as far as
`assert im.ndim == 3` can observe it: either a 2-D array or a 3-D stack. -/
inductive PyArray where
  | arr2 (H W : ℕ) (data : Frame)
  | arr3 (s : Stack3)

/-- `calculate_SRRF_temporal_correlations` as the caller sees it: a 2-D input
fails the `im.ndim == 3` assertion; a 3-D input runs on a one-cell heap. -/
def calculate_SRRF_temporal_correlations (im : PyArray) (order : ℤ) (flag : Bool) :
    Except String NpVal :=
  match im with
  | .arr2 _ _ _ => .error ("AssertionError")
  | .arr3 s => (calculate_SRRF_heap ⟨[s]⟩ 0 order flag).2

/-- `calculate_eSRRF_temporal_correlations` (source lines 24-40) over the
heap: `np.array(im, dtype='float32')` allocates a copy, then the
`AVG / VAR / TAC2` chain, else `raise ValueError(..)`.  No branch writes the
heap. -/
def calculate_eSRRF_heap (h : Heap) (r : ℕ) (correlation : String) :
    Heap × Except String Frame :=
  let p := h.alloc (h.read r)
  let s := p.1.read p.2
  (p.1,
    if correlation = "AVG" then .ok (npMeanL s.frames)
    else if correlation = "VAR" then .ok (npVarL s.frames)
    else if correlation = "TAC2" then .ok (calculate_tac2 s)
    else .error ("Type of correlation must be AVG, VAR or TAC2"))

/-- `calculate_eSRRF_temporal_correlations` as the caller sees it. -/
def calculate_eSRRF_temporal_correlations (s : Stack3) (correlation : String) :
    Except String Frame :=
  (calculate_eSRRF_heap ⟨[s]⟩ 0 correlation).2

/-- Input validation of scipy's legacy `interp2d(x, y, z)` (the interpolator
the `GetMaxOptimizer` constructor builds): after ravelling, the grid is
rectangular exactly when `z.size == len(x) * len(y)`; otherwise scattered data
requires `len(x) == len(y)` (`"x and y must have equal lengths for non
rectangular grid"`) and `len(z) == len(x)` (`"Invalid length for input z for
non rectangular grid"`), each violation raising `ValueError`.  The further
spline fitting performed on the accepted paths is not modelled (this model
answers `ok` there), so the model under-approximates the errors scipy
raises. -/
def interp2dInit (xlen ylen zsize : ℕ) : Except String Unit :=
  if zsize = xlen * ylen then .ok ()
  else if xlen ≠ ylen then .error ("x and y must have equal lengths for non rectangular grid")
  else if zsize ≠ xlen then .error ("Invalid length for input z for non rectangular grid")
  else .ok ()

/-- `GetMaxOptimizer.__init__` on an `h × w` surface calls
`interp2d(np.array(range(h)), np.array(w), slice_ccm.reshape(h * w))`:
the x grid has length `h`, the y argument is the 0-d array holding `w`
(length 1 after ravelling — the source passes the width itself instead of
`range(w)`), and z has length `h * w`. -/
def getMaxOptimizerInit (h w : ℕ) : Except String Unit :=
  interp2dInit h 1 (h * w)

/-- Events of one `GetMaxOptimizer` run: constructing a fresh
`scipy.interpolate.griddata` interpolation, constructing the `interp2d`
interpolant, and evaluating an objective sample. -/
inductive OptEvent where
  | buildGriddata
  | buildInterp2d
  | evalObjective
deriving DecidableEq

/-- Trace of one call of `get_interpolated_px_value` (source lines 18-23): it
rebuilds the point list and the value vector and calls
`griddata(points, values, coords, method="cubic")`, which constructs a fresh
interpolation structure, then evaluates it at `coords`. -/
def get_interpolated_px_value_trace : List OptEvent :=
  [.buildGriddata, .evalObjective]

/-- Trace of one call of `get_interpolated_px_value_optimized` (source lines
25-26): it only evaluates the prebuilt `self.interpolator`. -/
def get_interpolated_px_value_optimized_trace : List OptEvent :=
  [.evalObjective]

/-- Trace of `get_max` (source lines 28-31) when the Nelder-Mead minimizer
evaluates the objective `nEvals` times: the objective passed to
`scipy.optimize.minimize` is `self.get_interpolated_px_value`, so its trace is
replayed once per evaluation. -/
def get_max_trace (nEvals : ℕ) : List OptEvent :=
  (List.replicate nEvals get_interpolated_px_value_trace).flatten

/-- Trace of constructing a `GetMaxOptimizer` and running `get_max` with
`nEvals` objective evaluations: `__init__` builds the (never reused)
`interp2d` interpolant once, then `get_max` runs. -/
def locate_max_trace (nEvals : ℕ) : List OptEvent :=
  OptEvent.buildInterp2d :: get_max_trace nEvals

/-! ### Heap frame conditions -/

lemma Heap.read_write_ne (h : Heap) (k r : ℕ) (v : Stack3) (hne : r ≠ k) :
    (h.write k v).read r = h.read r := by
  simp only [Heap.write, Heap.read, List.getD_eq_getElem?_getD]
  rw [List.getElem?_set_ne (fun hk => hne hk.symm)]

lemma Heap.read_alloc_lt (h : Heap) (v : Stack3) (r : ℕ) (hr : r < h.arrays.length) :
    ((h.alloc v).1).read r = h.read r := by
  simp only [Heap.alloc, Heap.read]
  exact List.getD_append _ _ _ _ hr

lemma Heap.alloc_snd (h : Heap) (v : Stack3) : (h.alloc v).2 = h.arrays.length := rfl

lemma foldl_heap_read {α : Type} (r : ℕ) (f : Heap → α → Heap)
    (hf : ∀ hh a, (f hh a).read r = hh.read r) :
    ∀ (l : List α) (hh : Heap), (l.foldl f hh).read r = hh.read r := by
  intro l
  induction l with
  | nil => intro hh; rfl
  | cons a t ih => intro hh; rw [List.foldl_cons, ih, hf]

lemma foldl_pair_read {α β : Type} (r : ℕ) (f : Heap × β → α → Heap × β)
    (hf : ∀ st a, ((f st a).1).read r = st.1.read r) :
    ∀ (l : List α) (st : Heap × β), ((l.foldl f st).1).read r = st.1.read r := by
  intro l
  induction l with
  | nil => intro st; rfl
  | cons a t ih => intro st; rw [List.foldl_cons, ih, hf]

lemma lagStep_read (rim r : ℕ) (mean : Frame) (order : ℤ) (nb : ℚ)
    (st : Heap × AcrfAcc) (t : ℕ) (hne : r ≠ rim) :
    ((lagStep rim mean order nb st t).1).read r = st.1.read r := by
  have hw : ∀ (hh : Heap) (v : Stack3), (hh.write rim v).read r = hh.read r :=
    fun hh v => Heap.read_write_ne hh rim r v hne
  unfold lagStep
  by_cases hc : ((((t : ℤ) * order : ℤ) : ℚ) < nb)
  · simp only [hc, if_true, if_pos hc]
    rw [foldl_heap_read r _ (fun hh a => hw hh _), hw]
  · simp only [hc, if_false, if_neg hc]
    rw [hw]

lemma lagOuter_read (rim r : ℕ) (mean : Frame) (order : ℤ) (hne : r ≠ rim) :
    ∀ (fuel : ℕ) (nb : ℚ) (hh : Heap) (acc : AcrfAcc) (out : Frame),
      ((lagOuter rim mean order fuel nb hh acc out).1).read r = hh.read r := by
  intro fuel
  induction fuel with
  | zero => intro nb hh acc out; rfl
  | succ m ih =>
    intro nb hh acc out
    unfold lagOuter
    by_cases hc : ((order : ℚ) < nb)
    · rw [if_pos hc, ih]
      exact foldl_pair_read r _ (fun st a => lagStep_read rim r mean order nb st a hne) _ _
    · rw [if_neg hc]

lemma calculate_acrf_heap_read (h : Heap) (rr : ℕ) (order : ℤ) (flag : Bool)
    (r : ℕ) (hr : r < h.arrays.length) :
    ((calculate_acrf_heap h rr order flag).1).read r = h.read r := by
  have hne : r ≠ h.arrays.length := Nat.ne_of_lt hr
  unfold calculate_acrf_heap
  cases flag with
  | false =>
    rw [if_pos rfl]
    exact Heap.read_alloc_lt h _ r hr
  | true =>
    rw [if_neg (by decide : ¬(true = false)), Heap.alloc_snd, lagOuter_read _ r _ _ hne]
    exact Heap.read_alloc_lt h _ r hr

/-! ### Unfolding the wrapped acrf computation -/

lemma calculate_acrf_eq (s : Stack3) (order : ℤ) (flag : Bool) :
    calculate_acrf_ s order flag =
      if flag = false then
        acrfOut order
          ((List.range (((s.frames.length : ℤ) - order).toNat)).foldl
            (accUpdate s.frames (npMeanL s.frames) order) AcrfAcc.init)
          (s.frames.length : ℚ)
      else
        (lagOuter 1 (npMeanL s.frames) order (s.frames.length + 1)
          (s.frames.length : ℚ) ⟨[s, s]⟩ AcrfAcc.init zeroF).2 := by
  cases flag <;> rfl

/-- C7: for every heap, every valid caller cell, every SRRF order and flag and
every eSRRF correlation kind, the engine never mutates the caller's input
array: after `compute` returns, the caller's cell reads back exactly as before
the call, because every destructive operation acts on the freshly allocated
internal copies only. -/
theorem compute_never_mutates_input (h : Heap) (r : ℕ) (order : ℤ) (flag : Bool)
    (kind : String) (hr : r < h.arrays.length) :
    (calculate_SRRF_heap h r order flag).1.read r = h.read r ∧
      (calculate_eSRRF_heap h r kind).1.read r = h.read r := by
  constructor
  · unfold calculate_SRRF_heap
    cases hd : srrfDispatch 3 order with
    | assertError => simp only [hd]; exact Heap.read_alloc_lt h _ r hr
    | amax => simp only [hd]; exact Heap.read_alloc_lt h _ r hr
    | mean => simp only [hd]; exact Heap.read_alloc_lt h _ r hr
    | pps => simp only [hd]; exact Heap.read_alloc_lt h _ r hr
    | acrf =>
      have hlt : r < ((h.alloc (h.read r)).1).arrays.length := by
        simp only [Heap.alloc, List.length_append, List.length_singleton]
        omega
      simp only [hd]
      rw [calculate_acrf_heap_read _ _ _ _ r hlt]
      exact Heap.read_alloc_lt h _ r hr
  · unfold calculate_eSRRF_heap
    exact Heap.read_alloc_lt h _ r hr

/-- Concrete one-cell heap used as the C7 witness input. -/
def H7 : Heap := ⟨[⟨1, 1, [zeroF]⟩]⟩

/-- Witness for C7: the no-mutation theorem applied at a concrete heap, order
and kind. -/
theorem compute_never_mutates_input_witness :
    (calculate_SRRF_heap H7 0 2 false).1.read 0 = H7.read 0 ∧
      (calculate_eSRRF_heap H7 0 ("AVG")).1.read 0 = H7.read 0 :=
  compute_never_mutates_input H7 0 2 false ("AVG") (by decide)

/-- C9: every integer order other than 0, 1 and -1 that passes the assertion
`order <= 4` — including negative orders such as -2 — is dispatched by the
SRRF entry point straight to the cumulant sliding-window computation; the
SRRF entry point has no unknown-kind validation of its own. -/
theorem srrf_dispatch_no_kind_validation (order : ℤ) (h4 : order ≤ 4)
    (h0 : order ≠ 0) (h1 : order ≠ 1) (hm1 : order ≠ -1) :
    srrfDispatch 3 order = SRRFBranch.acrf := by
  unfold srrfDispatch
  rw [if_neg (not_not_intro ⟨rfl, h4⟩), if_neg h0, if_neg h1, if_neg hm1]

/-- Witness for C9 at the negative order -2. -/
theorem srrf_dispatch_no_kind_validation_witness :
    srrfDispatch 3 (-2) = SRRFBranch.acrf :=
  srrf_dispatch_no_kind_validation (-2) (by decide) (by decide) (by decide) (by decide)

/-- C5 counterexample: a shape mismatch does cause a raised error — the SRRF
entry point on a 2-D input fails its `im.ndim == 3` assertion instead of
producing an undefined numeric result. -/
theorem srrf_shape_mismatch_raises :
    calculate_SRRF_temporal_correlations (PyArray.arr2 5 5 zeroF) 1 false =
      Except.error ("AssertionError") := rfl

/-- C5 (amended): the eSRRF engine raises the ValueError naming the allowed
set exactly when the correlation kind is outside AVG, VAR, TAC2; but it is not
the only actively validated error, since the SRRF entry point raises an
AssertionError on every input that is not 3-dimensional (for every order and
flag). -/
theorem unknown_kind_not_only_validated_error (s : Stack3) (kind : String)
    (Hd Wd : ℕ) (d : Frame) (order : ℤ) (flag : Bool) :
    ((calculate_eSRRF_temporal_correlations s kind =
        Except.error ("Type of correlation must be AVG, VAR or TAC2")) ↔
      ¬(kind = "AVG" ∨ kind = "VAR" ∨ kind = "TAC2")) ∧
    calculate_SRRF_temporal_correlations (PyArray.arr2 Hd Wd d) order flag =
      Except.error ("AssertionError") := by
  refine ⟨?_, rfl⟩
  unfold calculate_eSRRF_temporal_correlations calculate_eSRRF_heap
  by_cases h1 : kind = "AVG"
  · simp [h1]
  · by_cases h2 : kind = "VAR"
    · simp [h1, h2]
    · by_cases h3 : kind = "TAC2"
      · simp [h1, h2, h3]
      · simp [h1, h2, h3]

/-- C1: constructing a `GetMaxOptimizer` on a 2-by-2 surface already raises:
the constructor's `interp2d` call receives a length-2 x grid, the scalar width
as its y grid and 4 z values, which scipy rejects, so `locate_max` cannot
return a coordinate. -/
theorem getMaxOptimizer_construction_raises :
    getMaxOptimizerInit 2 2 =
      Except.error ("x and y must have equal lengths for non rectangular grid") := rfl

/-- Supporting lemma: for every surface with at least one row and at least two
columns, the `GetMaxOptimizer` constructor's `interp2d` call is rejected by
scipy's input validation. -/
lemma getMaxOptimizerInit_always_errors (h w : ℕ) (hh : 1 ≤ h) (hw : 2 ≤ w) :
    ∃ msg, getMaxOptimizerInit h w = Except.error msg := by
  unfold getMaxOptimizerInit interp2dInit
  have hlt : h * 1 < h * w := mul_lt_mul_of_pos_left hw hh
  split_ifs with ha hb hc
  · exact absurd ha (ne_of_gt hlt)
  · exact ⟨_, rfl⟩
  · exact ⟨_, rfl⟩
  · exfalso
    have hb1 : h = 1 := not_not.mp hb
    have hc1 : h * w = h := not_not.mp hc
    rw [hb1, one_mul] at hc1
    omega

/-- C10: the `interp2d` interpolant that `get_interpolated_px_value_optimized`
would evaluate is never available — already on a 3-by-3 surface the
constructor's `interp2d` call raises, so the optimized objective cannot be
interchangeable with the griddata objective. -/
theorem optimized_objective_interpolant_never_built :
    getMaxOptimizerInit 3 3 =
      Except.error ("x and y must have equal lengths for non rectangular grid") := rfl

/-- Supporting lemma: the griddata-based objective performs one fresh
interpolation construction per call. -/
lemma get_max_trace_count (m : ℕ) :
    (get_max_trace m).count OptEvent.buildGriddata = m := by
  induction m with
  | zero => rfl
  | succ k ih =>
    unfold get_max_trace at ih ⊢
    rw [List.replicate_succ, List.flatten_cons, List.count_append, ih]
    have h1 : List.count OptEvent.buildGriddata get_interpolated_px_value_trace = 1 := by
      decide
    rw [h1]
    omega

/-- C8: during one `locate_max` run whose minimizer evaluates the objective
`n` times, `n` fresh griddata interpolation structures are constructed — one
per objective evaluation — rather than a single one being reused; only the
(unused) optimized objective performs zero constructions per evaluation. -/
theorem get_max_rebuilds_interpolant_every_evaluation (n : ℕ) :
    (locate_max_trace n).count OptEvent.buildGriddata = n ∧
      (get_interpolated_px_value_optimized_trace).count OptEvent.buildGriddata = 0 := by
  refine ⟨?_, rfl⟩
  unfold locate_max_trace
  rw [List.count_cons, get_max_trace_count]
  simp

/-- C2 counterexample: on the concrete 2-frame stack `[A, A+1]` with `A = 0`,
the non-lag-integrated CUMULANT2 entry is not `0.5` — the sliding window
`t < T - order = 0` never runs, so the entry is `0`. -/
theorem cumulant2_stack_A_Aplus1_entry_ne_half :
    calculate_acrf_ ⟨1, 1, [zeroF, oneF]⟩ 2 false 0 0 ≠ (1 : ℚ) / 2 := by
  rw [calculate_acrf_eq]
  norm_num [acrfOut, AcrfAcc.init, fabs, fdivC, zeroF]

/-- C2 (amended): for every 2D frame `A`, the non-lag-integrated CUMULANT2 map
of the 2-frame stack `[A, A+1]` is all-zero, because with `T = order = 2` the
sliding-window loop executes zero iterations. -/
theorem cumulant2_stack_A_Aplus1_all_zero (Hd Wd : ℕ) (A : Frame) (i j : ℕ) :
    calculate_acrf_ ⟨Hd, Wd, [A, fun a b => A a b + 1]⟩ 2 false i j = 0 := by
  rw [calculate_acrf_eq]
  norm_num [acrfOut, AcrfAcc.init, fabs, fdivC, zeroF]

/-- C3: on a stack with exactly `T = order` frames (order 2, 3 or 4), the
sliding-window loop of the cumulant computation executes zero iterations (its
iteration count `(T - order).toNat` is zero) and the returned map is all-zero,
for either value of the lag-integration flag, with no error raised (the
embedding is total). -/
theorem cumulant_T_eq_order_all_zero (s : Stack3) (order : ℤ) (flag : Bool)
    (horder : order = 2 ∨ order = 3 ∨ order = 4)
    (hlen : (s.frames.length : ℤ) = order) :
    ((s.frames.length : ℤ) - order).toNat = 0 ∧
      ∀ i j, calculate_acrf_ s order flag i j = 0 := by
  have h0 : ((s.frames.length : ℤ) - order).toNat = 0 := by omega
  refine ⟨h0, ?_⟩
  intro i j
  rw [calculate_acrf_eq]
  cases flag with
  | false =>
    rw [if_pos rfl, h0]
    simp only [List.range_zero, List.foldl_nil]
    rcases horder with h | h | h <;> subst h <;>
      norm_num [acrfOut, AcrfAcc.init, fabs, fdivC, fsub, fmul, zeroF]
  | true =>
    rw [if_neg (by decide : ¬(true = false))]
    have hq : ¬((order : ℚ) < (s.frames.length : ℚ)) := by
      have hcast : ((s.frames.length : ℚ)) = (order : ℚ) := by exact_mod_cast hlen
      rw [hcast]
      exact lt_irrefl _
    unfold lagOuter
    rw [if_neg hq]
    simp [zeroF]

/-- Witness for C3: the zero-iteration theorem applied to a concrete 2-frame
stack at order 2. -/
theorem cumulant_T_eq_order_all_zero_witness :
    calculate_acrf_ ⟨1, 1, [zeroF, oneF]⟩ 2 false 0 0 = 0 :=
  (cumulant_T_eq_order_all_zero ⟨1, 1, [zeroF, oneF]⟩ 2 false (Or.inl rfl)
      (by decide)).2 0 0

/-- Supporting lemma: when every pixel of every frame is strictly negative,
every clipped frame is identically zero, `np.any` never fires, and the `pps`
accumulator stays the Python scalar 0, which the function then returns — a 0-d
scalar, not an `H × W` array. -/
lemma pps_all_negative (s : Stack3)
    (hneg : ∀ f ∈ s.frames, ∀ i j, f i j < 0) :
    calculate_pairwise_product_sum s = NpVal.scalar 0 := by
  have hc : ∀ t0, clipNeg (s.frames.getD t0 zeroF) = zeroF := by
    intro t0
    funext i j
    show max (s.frames.getD t0 zeroF i j) 0 = 0
    by_cases ht : t0 < s.frames.length
    · have hmem : s.frames.getD t0 zeroF ∈ s.frames := by
        rw [List.getD_eq_getElem _ _ ht]
        exact List.getElem_mem ht
      exact max_eq_right (le_of_lt (hneg _ hmem i j))
    · rw [List.getD_eq_default _ _ (Nat.le_of_not_lt ht)]
      exact max_eq_right le_rfl
  have ha : ∀ t0, npAny s.H s.W (clipNeg (s.frames.getD t0 zeroF)) = false := by
    intro t0
    rw [hc]
    simp [npAny, zeroF]
  have hfold : ∀ (l : List ℕ) (st : NpVal × ℕ), st.1 = NpVal.scalar 0 →
      ((l.foldl (ppsStep s s.frames.length) st).1) = NpVal.scalar 0 := by
    intro l
    induction l with
    | nil => intro st h; exact h
    | cons a t ih =>
      intro st h
      rw [List.foldl_cons]
      apply ih
      simp only [ppsStep]
      rw [ha a]
      simp [h]
  have hres : ((List.range s.frames.length).foldl (ppsStep s s.frames.length)
      (NpVal.scalar 0, 0)).1 = NpVal.scalar 0 := hfold _ _ rfl
  simp only [calculate_pairwise_product_sum]
  rw [hres]
  simp [NpVal.divC, zero_div]

/-- C4: evaluating `calculate_pairwise_product_sum` at the failing input — a
1-frame 1-by-1 stack whose only pixel is -1 — yields the Python 0-d scalar 0
(`NpVal.scalar 0`), not a 2-D `H × W` array of zeros: on an all-negative stack
the accumulator is never broadcast to an array. -/
theorem pps_all_negative_returns_scalar :
    calculate_pairwise_product_sum ⟨1, 1, [negOneF]⟩ = NpVal.scalar 0 :=
  pps_all_negative ⟨1, 1, [negOneF]⟩ (by
    intro f hf i j
    simp only [List.mem_singleton] at hf
    subst hf
    norm_num [negOneF])

/-- Supporting lemma: the order-2 output of `calculate_acrf_` is the absolute
value of the `ab` accumulator divided by the time-point count. -/
lemma acrfOut_two (acc : AcrfAcc) (d : ℚ) (i j : ℕ) :
    acrfOut 2 acc d i j = |acc.ab i j| / d := by
  norm_num [acrfOut, fdivC, fabs]

/-- Supporting lemma: one order-2 accumulator step adds the lag-1 product of
centered frames `t` and `t+1` to `ab`. -/
lemma accUpdate_two_ab (im : List Frame) (mean : Frame) (a : AcrfAcc) (t : ℕ)
    (i j : ℕ) :
    (accUpdate im mean 2 a t).ab i j =
      a.ab i j +
        (im.getD t zeroF i j - mean i j) * (im.getD (t + 1) zeroF i j - mean i j) := by
  norm_num [accUpdate, fadd, fmul, fsub]

/-- Supporting lemma: the order-2 sliding-window fold accumulates the sum of
the lag-1 products of centered frames. -/
lemma foldl_accUpdate_two_ab (im : List Frame) (mean : Frame) (i j : ℕ) :
    ∀ (k : ℕ) (acc : AcrfAcc),
      ((List.range k).foldl (accUpdate im mean 2) acc).ab i j =
        acc.ab i j +
          ∑ t ∈ Finset.range k,
            (im.getD t zeroF i j - mean i j) * (im.getD (t + 1) zeroF i j - mean i j) := by
  intro k
  induction k with
  | zero => intro acc; simp
  | succ m ih =>
    intro acc
    rw [List.range_succ, List.foldl_append, List.foldl_cons, List.foldl_nil,
      accUpdate_two_ab, ih, Finset.sum_range_succ]
    ring

/-- C6 (amended): for every stack with at least 2 frames and every pixel,
`T * CUMULANT2 = |(T-1) * TAC2 - cLast|`, where `cLast` is the lag-1 product
of the last two mean-centered frames: CUMULANT2 is the absolute value of the
TAC2 sum with its final lag term dropped, renormalized by `T` instead of
`T-1`; it is not sign-consistently proportional to TAC2. -/
theorem cumulant2_tac2_relation (s : Stack3) (hT : 2 ≤ s.frames.length) (i j : ℕ) :
    (s.frames.length : ℚ) * calculate_acrf_ s 2 false i j =
      |((s.frames.length : ℚ) - 1) * calculate_tac2 s i j -
          (s.frames.getD (s.frames.length - 2) zeroF i j - npMeanL s.frames i j) *
            (s.frames.getD (s.frames.length - 1) zeroF i j - npMeanL s.frames i j)| := by
  have hpos : (0 : ℚ) < (s.frames.length : ℚ) := by
    exact_mod_cast Nat.lt_of_lt_of_le Nat.zero_lt_two hT
  have hn0 : ((s.frames.length : ℚ)) ≠ 0 := ne_of_gt hpos
  have h2q : (2 : ℚ) ≤ (s.frames.length : ℚ) := by exact_mod_cast hT
  have hn1 : ((s.frames.length : ℚ) - 1) ≠ 0 :=
    ne_of_gt (by linarith : (0 : ℚ) < (s.frames.length : ℚ) - 1)
  rw [calculate_acrf_eq, if_pos rfl]
  have htn : (((s.frames.length : ℤ) - 2).toNat) = s.frames.length - 2 := by omega
  rw [htn, acrfOut_two, foldl_accUpdate_two_ab]
  simp only [AcrfAcc.init, zeroF, zero_add]
  rw [mul_comm ((s.frames.length : ℚ)) _, div_mul_cancel₀ _ hn0]
  simp only [calculate_tac2]
  rw [mul_comm ((s.frames.length : ℚ) - 1) _, div_mul_cancel₀ _ hn1]
  have hsplit : s.frames.length - 1 = (s.frames.length - 2) + 1 := by omega
  rw [hsplit, Finset.sum_range_succ, add_sub_cancel_right]

/-- Concrete 3-frame stack used as the C6 witness input. -/
def S6w : Stack3 := ⟨1, 1, [zeroF, oneF, twoF]⟩

/-- Witness for C6: the CUMULANT2/TAC2 relation applied at a concrete 3-frame
stack and pixel. -/
theorem cumulant2_tac2_relation_witness :
    (S6w.frames.length : ℚ) * calculate_acrf_ S6w 2 false 0 0 =
      |((S6w.frames.length : ℚ) - 1) * calculate_tac2 S6w 0 0 -
          (S6w.frames.getD (S6w.frames.length - 2) zeroF 0 0 - npMeanL S6w.frames 0 0) *
            (S6w.frames.getD (S6w.frames.length - 1) zeroF 0 0 - npMeanL S6w.frames 0 0)| :=
  cumulant2_tac2_relation S6w (by decide) 0 0

/-- C6 counterexample: on the 2-frame 1-by-1 stack with pixel values 0 and 2,
TAC2 is -1 while the non-lag-integrated CUMULANT2 is 0 (the sliding window is
empty), so no positive constant relates them with consistent sign. -/
theorem tac2_cumulant2_not_proportional :
    ¬ ∃ c : ℚ, 0 < c ∧
        calculate_acrf_ ⟨1, 1, [zeroF, twoF]⟩ 2 false 0 0 =
          c * calculate_tac2 ⟨1, 1, [zeroF, twoF]⟩ 0 0 := by
  rintro ⟨c, hc, he⟩
  have h1 : calculate_acrf_ ⟨1, 1, [zeroF, twoF]⟩ 2 false 0 0 = 0 := by
    rw [calculate_acrf_eq]
    norm_num [acrfOut, AcrfAcc.init, fabs, fdivC, zeroF]
  have h2 : calculate_tac2 ⟨1, 1, [zeroF, twoF]⟩ 0 0 = -1 := by
    norm_num [calculate_tac2, npMeanL, zeroF, twoF, Finset.sum_range_succ,
      Finset.sum_range_zero, List.getD_cons_zero, List.getD_cons_succ]
  rw [h1, h2] at he
  have hc0 : c = 0 := by linarith
  exact absurd hc0 (ne_of_gt hc)
